import Mathlib

/-!
Shallow embedding of the chat/event engine of `venueless.core.services.chat`
(`ChatService`).  The relational store is embedded as explicit lists of rows,
the volatile sequence counter (redis key `chat.event_id`) as a natural number,
and every service method as a pure function from the store to the store plus
its return value.  Field and function names follow the source.
-/

set_option autoImplicit false

namespace Chat

/-- Account type of a user; the source only discriminates the two
non-participating kinds `KIOSK` and `ANONYMOUS` against all others. -/
inductive UserType where
  | person
  | kiosk
  | anonymous
deriving DecidableEq, Repr

/-- Row of the `User` table, restricted to the fields the chat service reads:
primary key, world, the set of users this user has blocked (by id), the
deletion flag, the account type and the profile display name
(`profile.get("display_name")`, `none` when unset). -/
structure User where
  id : Nat
  world_id : Nat
  blocked_users : List Nat
  deleted : Bool
  type : UserType
  display_name : Option String
deriving DecidableEq, Repr

/-- Row of the `Channel` table: primary key, world, optional bound room
(`room = null` for direct channels). -/
structure Channel where
  id : Nat
  world_id : Nat
  room_id : Option Nat
deriving DecidableEq, Repr

/-- Row of the `Room` table restricted to what the chat service reads:
primary key, world and the `force_join` flag. -/
structure Room where
  id : Nat
  world_id : Nat
  force_join : Bool
deriving DecidableEq, Repr

/-- Row of the `Membership` join table: (channel, user) with the
`volatile` and `hidden` flags. -/
structure Membership where
  channel_id : Nat
  user_id : Nat
  volatile : Bool
  hidden : Bool
deriving DecidableEq, Repr

/-- Structured event content.  The source stores a JSON mapping; following
the design notes it is embedded as a tagged variant.  `memberJoin u` stands
for the mapping `\x7b"membership": "join", "user": serialize_public(u)\x7d`
synthesized by `enforce_forced_joins`. -/
inductive Content where
  | text (body : String)
  | memberJoin (user_id : Nat)
  | other (tag : String)
deriving DecidableEq, Repr

/-- Row of the `ChatEvent` table: global primary key `id`, channel, event
type string, content, sender and the optional `replaces` edit reference,
plus the `edited` timestamp (`none` until the first edit).  `serialize_public`
is not part of the sources; per the spec every public operation returns the
plain serializable record, so the row itself doubles as its serialized form. -/
structure ChatEvent where
  id : Nat
  channel_id : Nat
  event_type : String
  content : Content
  sender_id : Nat
  replaces_id : Option Nat
  edited : Option Nat
deriving DecidableEq, Repr

/-- Row of the `ChatEventReaction` table: (event, reaction symbol, sender). -/
structure ChatEventReaction where
  chat_event_id : Nat
  reaction : String
  sender_id : Nat
deriving DecidableEq, Repr

/-- Row of the `ChatEventNotification` table: (event, recipient). -/
structure ChatEventNotification where
  chat_event_id : Nat
  recipient_id : Nat
deriving DecidableEq, Repr

/-- The store the chat service acts on: the relational tables plus the
volatile sequence counter (redis key `chat.event_id`; `incr` of a counter at
value `n` yields `n + 1`) and the autoincrement source for fresh channel
primary keys. -/
structure DB where
  users : List User
  rooms : List Room
  channels : List Channel
  memberships : List Membership
  events : List ChatEvent
  reactions : List ChatEventReaction
  notifications : List ChatEventNotification
  counter : Nat
  nextChannelId : Nat
deriving DecidableEq, Repr

/-- `ChatEvent.objects.aggregate(m=Max("id"))["m"] or 0`: the maximum event id
in the durable log, `0` for an empty log (`_get_highest_id`). -/
def getHighestId (events : List ChatEvent) : Nat :=
  events.foldr (fun e m => max e.id m) 0

/-- Whether the durable log already holds an event with primary key `i`
(the uniqueness constraint that makes a duplicate insert fail). -/
def containsId (events : List ChatEvent) (i : Nat) : Bool :=
  events.any (fun e => e.id == i)

/-- `ChatService._store_event`: durable insert of an event at a fixed id.
Returns `none` when the insert raises an `IntegrityError` because that id
already exists, otherwise the stored (serialized) event and the grown log.
The side branch enriching `content` of type `"call"` with a call-backend
record is an external collaborator (spec section 6) and is not part of any
embedded claim; content passes through unchanged here. -/
def storeEvent (db : DB) (id : Nat) (channel_id : Nat) (event_type : String)
    (content : Content) (sender_id : Nat) (replaces : Option Nat) :
    Option (ChatEvent × DB) :=
  if containsId db.events id then none
  else
    let ce : ChatEvent :=
      { id := id, channel_id := channel_id, event_type := event_type,
        content := content, sender_id := sender_id, replaces_id := replaces,
        edited := none }
    some (ce, { db with events := db.events ++ [ce] })

/-- `ChatService.create_event` with `_retry=True`: increment the counter, on a
candidate below 2 reset the counter to one past the durable maximum, attempt
the insert at the candidate, and on a duplicate-id failure raise
`ValueError("unable to recover in store_event")` instead of retrying again. -/
def create_event_retry (db : DB) (channel_id : Nat) (event_type : String)
    (content : Content) (sender_id : Nat) (replaces : Option Nat) :
    DB × Except String ChatEvent :=
  let event_id := db.counter + 1
  let db1 : DB := { db with counter := event_id }
  let db2 : DB :=
    if event_id < 2 then { db1 with counter := getHighestId db1.events + 1 }
    else db1
  match storeEvent db2 event_id channel_id event_type content sender_id replaces with
  | some (ce, db3) => (db3, Except.ok ce)
  | none => (db2, Except.error "unable to recover in store_event")

/-- `ChatService.create_event` with `_retry=False` (the public entry point):
increment the counter; if the candidate id is below 2 set the counter to one
past the durable maximum (but keep the low candidate for the insert); attempt
the durable insert; on a duplicate-id failure recompute the durable maximum,
reset the counter to one past it and re-enter once with `_retry=True` — note
the retried call forwards channel, event type, content and sender but not
`replaces`. -/
def create_event (db : DB) (channel_id : Nat) (event_type : String)
    (content : Content) (sender_id : Nat) (replaces : Option Nat) :
    DB × Except String ChatEvent :=
  let event_id := db.counter + 1
  let db1 : DB := { db with counter := event_id }
  let db2 : DB :=
    if event_id < 2 then { db1 with counter := getHighestId db1.events + 1 }
    else db1
  match storeEvent db2 event_id channel_id event_type content sender_id replaces with
  | some (ce, db3) => (db3, Except.ok ce)
  | none =>
    let db4 : DB := { db2 with counter := getHighestId db2.events + 1 }
    create_event_retry db4 channel_id event_type content sender_id none

/-- Modelled from the spec: section 4.1 step 2 as the spec words it — when the
candidate id is below the sanity floor, recompute the floor as the maximum
existing event id, reset the counter **to that floor**, and **retry allocation
once** (a fresh increment) before the durable insert; collisions are then
handled as in step 3.  This definition exists to be compared against
`create_event`, which is translated from the source. -/
def create_event_specStep2 (db : DB) (channel_id : Nat) (event_type : String)
    (content : Content) (sender_id : Nat) (replaces : Option Nat) :
    DB × Except String ChatEvent :=
  let event_id := db.counter + 1
  let dbA : DB := { db with counter := event_id }
  let next : DB × Nat :=
    if event_id < 2 then
      let floor := getHighestId dbA.events
      let dbR : DB := { dbA with counter := floor }
      ({ dbR with counter := dbR.counter + 1 }, dbR.counter + 1)
    else (dbA, event_id)
  match storeEvent next.1 next.2 channel_id event_type content sender_id replaces with
  | some (ce, dbC) => (dbC, Except.ok ce)
  | none =>
    let dbD : DB := { next.1 with counter := getHighestId next.1.events + 1 }
    create_event_retry dbD channel_id event_type content sender_id none

/-- Projection used to compare allocation results: the id of the stored
event when the call succeeded. -/
def resultId (r : DB × Except String ChatEvent) : Option Nat :=
  match r.2 with
  | Except.ok e => some e.id
  | Except.error _ => none

/-- `ChatService.add_channel_user`: `Membership.objects.get_or_create` on
(channel, user) with `volatile` as the creation default; when the row already
exists as volatile and a non-volatile join is requested, the flag is cleared
in place.  Returns the new membership table and the `created` flag.  The
in-place `save` of the found row is embedded as a map over the table touching
exactly the rows with this (channel, user) key, which under the uniqueness
invariant is the single found row. -/
def add_channel_user (ms : List Membership) (channel_id : Nat) (user_id : Nat)
    (volatile : Bool) : List Membership × Bool :=
  match ms.find? (fun m => m.channel_id == channel_id && m.user_id == user_id) with
  | some m =>
    if m.volatile && !volatile then
      (ms.map (fun x =>
        if x.channel_id == channel_id && x.user_id == user_id then
          { x with volatile := false }
        else x), false)
    else (ms, false)
  | none =>
    (ms ++ [{ channel_id := channel_id, user_id := user_id,
              volatile := volatile, hidden := false }], true)

/-- Number of membership rows for a (channel, user) key; the source invariant
is that this is at most one. -/
def countMembership (ms : List Membership) (channel_id : Nat) (user_id : Nat) : Nat :=
  (ms.filter (fun m => m.channel_id == channel_id && m.user_id == user_id)).length

/-- The uniqueness invariant of the `Membership` table: the (channel, user)
key determines the row. -/
abbrev memsUnique (ms : List Membership) : Prop :=
  (ms.map (fun m => (m.channel_id, m.user_id))).Nodup

/-- Number of reaction rows for an (event, reaction, sender) triple. -/
def countReaction (rs : List ChatEventReaction) (event_id : Nat) (reaction : String)
    (user_id : Nat) : Nat :=
  (rs.filter (fun r =>
    r.chat_event_id == event_id && r.reaction == reaction && r.sender_id == user_id)).length

/-- The event re-serialized with its current reaction set attached
(`self._get_event(pk=event.pk).serialize_public()` with the prefetched
reactions). -/
def serializeWithReactions (events : List ChatEvent) (rs : List ChatEventReaction)
    (event_id : Nat) : Option (ChatEvent × List ChatEventReaction) :=
  (events.find? (fun e => e.id == event_id)).map
    (fun e => (e, rs.filter (fun r => r.chat_event_id == event_id)))

/-- `ChatService.add_reaction`: `ChatEventReaction.objects.update_or_create`
on the full (event, reaction, sender) triple — with no extra defaults a found
row is saved unchanged, otherwise the row is created.  Returns the new
reaction table and the re-serialized event. -/
def add_reaction (events : List ChatEvent) (rs : List ChatEventReaction)
    (event_id : Nat) (reaction : String) (user_id : Nat) :
    List ChatEventReaction × Option (ChatEvent × List ChatEventReaction) :=
  let rs2 :=
    if rs.any (fun r =>
        r.chat_event_id == event_id && r.reaction == reaction && r.sender_id == user_id)
    then rs
    else rs ++ [{ chat_event_id := event_id, reaction := reaction, sender_id := user_id }]
  (rs2, serializeWithReactions events rs2 event_id)

/-- `ChatService.remove_reaction`: delete the matching rows (a no-op when the
reaction is absent) and return the re-serialized event. -/
def remove_reaction (events : List ChatEvent) (rs : List ChatEventReaction)
    (event_id : Nat) (reaction : String) (user_id : Nat) :
    List ChatEventReaction × Option (ChatEvent × List ChatEventReaction) :=
  let rs2 := rs.filter (fun r =>
    !(r.chat_event_id == event_id && r.reaction == reaction && r.sender_id == user_id))
  (rs2, serializeWithReactions events rs2 event_id)

/-- The channel an event belongs to, through the `chat_event` foreign key. -/
def eventChannelId (events : List ChatEvent) (event_id : Nat) : Option Nat :=
  (events.find? (fun e => e.id == event_id)).map (fun e => e.channel_id)

/-- `ChatService.store_notification`: bulk insert of one notification row per
recipient, with no uniqueness enforcement. -/
def store_notification (db : DB) (event_id : Nat) (user_ids : List Nat) : DB :=
  { db with notifications :=
      db.notifications ++ user_ids.map (fun u =>
        { chat_event_id := event_id, recipient_id := u }) }

/-- The predicate selecting the rows `ChatService.remove_notifications`
deletes: notifications of this recipient whose event lies in this channel and
has id at most `max_id`. -/
def notificationSelected (events : List ChatEvent) (user_id : Nat) (channel_id : Nat)
    (max_id : Nat) (n : ChatEventNotification) : Bool :=
  n.chat_event_id ≤ max_id && eventChannelId events n.chat_event_id == some channel_id
    && n.recipient_id == user_id

/-- `ChatService.remove_notifications`: delete every selected row and report
whether the deleted count was positive. -/
def remove_notifications (db : DB) (user_id : Nat) (channel_id : Nat) (max_id : Nat) :
    DB × Bool :=
  let deleted :=
    (db.notifications.filter (notificationSelected db.events user_id channel_id max_id)).length
  ({ db with notifications :=
      db.notifications.filter (fun n =>
        !(notificationSelected db.events user_id channel_id max_id n)) },
   deleted > 0)

/-- `ChatService.get_notification_counts`: the notifications of the user,
grouped by the channel of their event, as a mapping from channel id to a
(positive) count; channels with no outstanding notification are absent.  The
inner join through `chat_event__channel_id` drops rows whose event is not in
the log. -/
def get_notification_counts (db : DB) (user_id : Nat) : List (Nat × Nat) :=
  let ns := db.notifications.filter (fun n => n.recipient_id == user_id)
  let chans := (ns.filterMap (fun n => eventChannelId db.events n.chat_event_id)).dedup
  chans.map (fun c =>
    (c, (ns.filter (fun n => eventChannelId db.events n.chat_event_id == some c)).length))

/-- Lookup in the grouped-count mapping (`dict` access; `none` models an
absent key). -/
def lookupCount (counts : List (Nat × Nat)) (channel_id : Nat) : Option Nat :=
  (counts.find? (fun p => p.1 == channel_id)).map (fun p => p.2)

/-- The validated participant list of `get_or_create_direct_channel`:
`User.objects.filter(world_id=world, id__in=user_ids)`. -/
def usersFound (users : List User) (world : Nat) (user_ids : List Nat) : List User :=
  users.filter (fun u => u.world_id == world && user_ids.contains u.id)

/-- The eligibility failure tested by `get_or_create_direct_channel`: some
participant has blocked another participant, is deleted, or is of kiosk or
anonymous type.  Distinct rows returned by the filter have distinct ids, so
the object inequality `v != u` of the source is embedded as id inequality. -/
def ineligible (users : List User) : Prop :=
  ∃ u ∈ users,
    (∃ v ∈ users, v.id ≠ u.id ∧ v.id ∈ u.blocked_users) ∨
      u.deleted = true ∨ u.type = UserType.kiosk ∨ u.type = UserType.anonymous

instance (users : List User) : Decidable (ineligible users) := by
  unfold ineligible
  exact inferInstance

/-- The two-sided count comparison of the channel search in
`get_or_create_direct_channel`: `mcount_mismatch` (membership rows of the
channel outside the requested ids) is null, i.e. the grouped subquery has no
rows; `mcount_match` (membership rows among the requested ids) equals the
requested size; the channel is room-less and in this world.  (The subquery
yields null rather than 0 when no row matches; with at least two requested
ids the two readings of `mcount_match` agree, since `0 = |ids|` is then
false either way.) -/
def directMatch (ms : List Membership) (world : Nat) (user_ids : List Nat)
    (c : Channel) : Bool :=
  ((ms.filter (fun m => m.channel_id == c.id && !(user_ids.contains m.user_id))).length == 0)
    && ((ms.filter (fun m => m.channel_id == c.id && user_ids.contains m.user_id)).length
          == user_ids.length)
    && c.room_id.isNone && (c.world_id == world)

/-- `ChatService.get_or_create_direct_channel`.  Validation first: the found
participants must be exactly as many as the requested ids, at least two, and
eligible; a failure returns `(none, false, [])` without touching the store
and without raising.  Then the exact-set search: `Channel.objects...get(...)`
returns the unique matching channel (`DoesNotExist` falls through to
creation; `MultipleObjectsReturned` propagates as an error).  Creation makes
a fresh room-less channel plus one non-volatile membership per participant,
hidden unless that participant equals `hide_except`. -/
def get_or_create_direct_channel (db : DB) (world : Nat) (user_ids : List Nat)
    (hide : Bool) (hide_except : Option Nat) :
    DB × Except String (Option Channel × Bool × List User) :=
  let users := usersFound db.users world user_ids
  if users.length ≠ user_ids.length ∨ users.length < 2 ∨ ineligible users then
    (db, Except.ok (none, false, []))
  else
    match db.channels.filter (directMatch db.memberships world user_ids) with
    | [c] => (db, Except.ok (some c, false, users))
    | [] =>
      let c : Channel := { id := db.nextChannelId, world_id := world, room_id := none }
      let newMs := users.map (fun u =>
        ({ channel_id := c.id, user_id := u.id, volatile := false,
           hidden := hide && some u.id != hide_except } : Membership))
      ({ db with channels := db.channels ++ [c],
                 memberships := db.memberships ++ newMs,
                 nextChannelId := db.nextChannelId + 1 },
       Except.ok (some c, true, users))
    | _ => (db, Except.error "MultipleObjectsReturned")

/-- Row of the `AuditLog` table as written by `update_event`: world, acting
user, the fixed type string, and the data mapping holding the event primary
key, whether the editor is the sender, and the old and new serialized forms. -/
structure AuditEntry where
  world_id : Nat
  user_id : Nat
  type : String
  object : Nat
  by_same_user : Bool
  old : ChatEvent
  new : ChatEvent
deriving DecidableEq, Repr

/-- `ChatService.update_event`: replace the content, stamp `edited` with the
current time (passed explicitly), save exactly those two fields, and create
the audit entry recording the serialized forms before and after. -/
def update_event (world : Nat) (event : ChatEvent) (new_content : Content)
    (by_user : Nat) (now : Nat) : ChatEvent × AuditEntry :=
  let old := event
  let event2 := { event with content := new_content, edited := some now }
  (event2,
   { world_id := world, user_id := by_user, type := "chat.event.updated",
     object := event.id, by_same_user := by_user == event.sender_id,
     old := old, new := event2 })

/-- `ChatService.get_channels_to_join_forced`: the channels of this world
whose room is flagged `force_join` and where the user has no non-volatile
membership row (the `is_member` exists-subquery). -/
def get_channels_to_join_forced (db : DB) (world : Nat) (user_id : Nat) : List Channel :=
  db.channels.filter (fun c =>
    !(db.memberships.any (fun m =>
        m.channel_id == c.id && m.user_id == user_id && !m.volatile))
      && (c.world_id == world)
      && (match c.room_id with
          | some r => (db.rooms.find? (fun room => room.id == r)).any (fun room => room.force_join)
          | none => false))

/-- State threaded through `enforce_forced_joins`: the store plus the
observable external effects — events fanned out per channel
(`group_send`), the number of channel-list broadcasts, the channels marked
for unread-notify tracking, and a pending fatal allocation error (a raised
`ValueError` aborts the loop). -/
structure EnforceState where
  db : DB
  sent : List (Nat × ChatEvent)
  broadcasts : Nat
  notify_marks : List (Nat × Nat)
  error : Option String
deriving DecidableEq, Repr

/-- One iteration of the loop of `enforce_forced_joins` for a candidate
channel: skip silently when the permission oracle denies `ROOM_CHAT_JOIN` on
the room; otherwise join non-volatilely, and only when the membership was
newly created allocate the `channel.member` join event, fan it out, broadcast
the channel list and mark the channel for unread notification.  Channels
returned by `get_channels_to_join_forced` always carry a room. -/
def enforce_step (perm : Nat → Bool) (user : User) (st : EnforceState)
    (c : Channel) : EnforceState :=
  if st.error.isSome then st
  else
    match c.room_id with
    | none => st
    | some room =>
      if !(perm room) then st
      else
        let j := add_channel_user st.db.memberships c.id user.id false
        let db2 := { st.db with memberships := j.1 }
        if j.2 then
          match create_event db2 c.id "channel.member" (Content.memberJoin user.id)
              user.id none with
          | (db3, Except.ok ev) =>
            { st with db := db3, sent := st.sent ++ [(c.id, ev)],
                      broadcasts := st.broadcasts + 1,
                      notify_marks := st.notify_marks ++ [(c.id, user.id)] }
          | (db3, Except.error msg) => { st with db := db3, error := some msg }
        else { st with db := db2 }

/-- `ChatService.enforce_forced_joins`: a no-op for a user without a display
name; otherwise fold `enforce_step` over the candidate channels (an empty
candidate list returns immediately, which coincides with the empty fold). -/
def enforce_forced_joins (perm : Nat → Bool) (world : Nat) (user : User)
    (st : EnforceState) : EnforceState :=
  if user.display_name.getD "" = "" then st
  else (get_channels_to_join_forced st.db world user.id).foldl (enforce_step perm user) st

/-- A chat-message event fixture. -/
def mkEv (i : Nat) (cid : Nat) : ChatEvent :=
  { id := i, channel_id := cid, event_type := "channel.message",
    content := Content.text "m", sender_id := 7, replaces_id := none, edited := none }

/-- An empty store with the counter at zero. -/
def emptyDB : DB :=
  { users := [], rooms := [], channels := [], memberships := [], events := [],
    reactions := [], notifications := [], counter := 0, nextChannelId := 100 }

/-- Store after a counter reset to zero while the durable log holds id 1. -/
def dbReset : DB := { emptyDB with events := [mkEv 1 1] }

/-- Store whose counter has fallen behind the durable log: the next candidate
id 6 is already taken. -/
def dbBehind : DB := { emptyDB with counter := 5, events := [mkEv 6 1] }

/-- Store with a free next candidate id. -/
def dbAhead : DB := { emptyDB with counter := 5, events := [mkEv 3 1] }

/-- Membership row constructor, convenient in statements. -/
def mkMembership (c u : Nat) (v h : Bool) : Membership :=
  { channel_id := c, user_id := u, volatile := v, hidden := h }

/-- Reaction row constructor, convenient in statements. -/
def mkReaction (e : Nat) (r : String) (s : Nat) : ChatEventReaction :=
  { chat_event_id := e, reaction := r, sender_id := s }

/-- A membership table holding a single volatile membership. -/
def msVolatile : List Membership := [mkMembership 1 2 true false]

/-- Participant fixtures for the direct-channel scenarios. -/
def ann : User :=
  { id := 1, world_id := 0, blocked_users := [], deleted := false,
    type := UserType.person, display_name := some "Ann" }

def bob : User :=
  { id := 2, world_id := 0, blocked_users := [], deleted := false,
    type := UserType.person, display_name := some "Bob" }

def cec : User :=
  { id := 3, world_id := 0, blocked_users := [], deleted := false,
    type := UserType.person, display_name := some "Cec" }

/-- A participant who has blocked `bob`. -/
def dan : User :=
  { id := 4, world_id := 0, blocked_users := [2], deleted := false,
    type := UserType.person, display_name := some "Dan" }

/-- A deleted account. -/
def delUser : User :=
  { id := 5, world_id := 0, blocked_users := [], deleted := true,
    type := UserType.person, display_name := some "Del" }

/-- A kiosk account. -/
def kioskUser : User :=
  { id := 6, world_id := 0, blocked_users := [], deleted := false,
    type := UserType.kiosk, display_name := some "Kio" }

/-- Store populated with the participant fixtures. -/
def dbDirect : DB :=
  { emptyDB with users := [ann, bob, cec, dan, delUser, kioskUser] }

/-- Store after the first `get_or_create_direct_channel` call for `[1, 2]`. -/
def dbD1 : DB := (get_or_create_direct_channel dbDirect 0 [1, 2] true none).1

/-- The direct channel created by the first call (fresh id 100). -/
def chD : Channel := { id := 100, world_id := 0, room_id := none }

/-- The distinct direct channel created for the superset `[1, 2, 3]`
(fresh id 101). -/
def chD3 : Channel := { id := 101, world_id := 0, room_id := none }

/-- Store holding one event with id 5 in channel 2, for the notification
lifecycle. -/
def dbNotif : DB := { emptyDB with events := [mkEv 5 2] }

/-- Store after notifying user 7 about event 5. -/
def dbN1 : DB := store_notification dbNotif 5 [7]

/-- Store after acknowledging channel 2 up to event 5 for user 7. -/
def dbN2 : DB := (remove_notifications dbN1 7 2 5).1

/-- The event stored by `storeEvent` at id 9 in the witness scenario. -/
def ce9 : ChatEvent :=
  { id := 9, channel_id := 1, event_type := "channel.message",
    content := Content.text "x", sender_id := 7, replaces_id := none, edited := none }

/-- `dbAhead` after the insert of `ce9`. -/
def dbAheadG : DB := { dbAhead with events := dbAhead.events ++ [ce9] }

/-- A room flagged force_join, its channel, and a store where user 1 is not
yet a member. -/
def roomF : Room := { id := 10, world_id := 0, force_join := true }

def chanF : Channel := { id := 20, world_id := 0, room_id := some 10 }

def dbForce : DB := { emptyDB with users := [ann], rooms := [roomF], channels := [chanF] }

def stForce : EnforceState :=
  { db := dbForce, sent := [], broadcasts := 0, notify_marks := [], error := none }

/-- A user who has not completed profile setup. -/
def noNameUser : User := { ann with id := 8, display_name := none }

/-- State after one enforcement run for `ann` with an all-permitting oracle. -/
def stForce1 : EnforceState := enforce_forced_joins (fun _ => true) 0 ann stForce

/-- Enforcement state where user 1 already holds a volatile membership of the
force-join channel. -/
def stMember : EnforceState :=
  { stForce with db :=
      { dbForce with memberships :=
          [{ channel_id := 20, user_id := 1, volatile := true, hidden := false }] } }

/-- Every event of the log has id at most `getHighestId`. -/
theorem le_getHighestId (events : List ChatEvent) (e : ChatEvent) (h : e ∈ events) :
    e.id ≤ getHighestId events := by
  induction events with
  | nil => cases h
  | cons a l ih =>
    simp only [getHighestId, List.foldr_cons] at *
    rcases List.mem_cons.mp h with rfl | hm
    · exact le_max_left _ _
    · exact le_trans (ih hm) (le_max_right _ _)

/-- Ids above the durable maximum are free. -/
theorem containsId_eq_false (events : List ChatEvent) (i : Nat)
    (h : getHighestId events < i) : containsId events i = false := by
  by_contra hc
  have ht : containsId events i = true := by
    revert hc
    cases containsId events i <;> simp
  rw [containsId, List.any_eq_true] at ht
  obtain ⟨e, he, heq⟩ := ht
  have hei : e.id = i := by simpa using heq
  have := le_getHighestId events e he
  omega

/-- C1 (amended). In `create_event`, when the incremented candidate id is
below the sanity bound 2, the floor is recomputed as the maximum existing
event id in the durable log and the counter is set to one past that floor,
but the durable insert is still attempted at the low candidate id; the
resulting duplicate-id failure triggers the single self-heal retry, which
re-increments from the reset counter, so that after a counter reset to 0 with
the durable log containing ids 1..N, the next allocation returns the id
N + 2, strictly greater than N, rather than colliding. -/
theorem create_event_self_heals (db : DB) (ch : Nat) (t : String) (ct : Content)
    (sd : Nat) (N : Nat) (h0 : db.counter = 0) (h1 : containsId db.events 1 = true)
    (hN : getHighestId db.events = N) :
    ∃ e, (create_event db ch t ct sd none).2 = Except.ok e ∧ e.id = N + 2 ∧ N < e.id := by
  have hfree : containsId db.events (getHighestId db.events + 1 + 1) = false :=
    containsId_eq_false _ _ (by omega)
  have hlt : ¬ (getHighestId db.events + 1 + 1 < 2) := by omega
  refine ⟨{ id := getHighestId db.events + 1 + 1, channel_id := ch, event_type := t,
            content := ct, sender_id := sd, replaces_id := none, edited := none },
          ?_, by simp [hN], by show N < getHighestId db.events + 1 + 1; omega⟩
  simp [create_event, create_event_retry, storeEvent, h0, h1, hfree, hlt]

/-- C1 counterexample. The claim describes step 2 as resetting the counter to
the floor itself and retrying allocation once before the durable insert
(`create_event_specStep2`, modelled from the spec wording); on the store with
counter 0 and durable log `[1]` that mechanism would store id 2, while the
source `create_event` keeps the low candidate for the first insert, heals on
the collision, and stores id 3. -/
theorem create_event_specStep2_differs :
    resultId (create_event dbReset 1 "channel.message" (Content.text "hi") 7 none)
        = some 3 ∧
      resultId (create_event_specStep2 dbReset 1 "channel.message" (Content.text "hi") 7 none)
        = some 2 ∧
      resultId (create_event dbReset 1 "channel.message" (Content.text "hi") 7 none)
        ≠ resultId (create_event_specStep2 dbReset 1 "channel.message" (Content.text "hi") 7 none) := by
  refine ⟨rfl, rfl, ?_⟩
  decide

/-- C1 witness: the amended self-heal theorem applied to the store with
counter 0 and durable log `[1]` yields the id 3 = 1 + 2 > 1. -/
theorem create_event_self_heals_witness :
    ∃ e, (create_event dbReset 1 "channel.message" (Content.text "hi") 7 none).2
        = Except.ok e ∧ e.id = 1 + 2 ∧ 1 < e.id :=
  create_event_self_heals dbReset 1 "channel.message" (Content.text "hi") 7 1 rfl rfl rfl

/-- C2. When the durable insert at the candidate id fails because that id
already exists, `create_event` recomputes the floor from the durable log,
resets the counter to one past it, and re-enters exactly once as the
`_retry=True` variant (first conjunct); and when the insert of the
`_retry=True` variant also collides, the call fails with the
"unable to recover" error instead of retrying again (second conjunct). -/
theorem create_event_collision_retries_once (db : DB) (ch : Nat) (t : String)
    (ct : Content) (sd : Nat) (rep : Option Nat) :
    (1 ≤ db.counter → containsId db.events (db.counter + 1) = true →
      create_event db ch t ct sd rep =
        create_event_retry { db with counter := getHighestId db.events + 1 } ch t ct sd none)
    ∧ (1 ≤ db.counter → containsId db.events (db.counter + 1) = true →
      (create_event_retry db ch t ct sd rep).2 =
        Except.error "unable to recover in store_event") := by
  constructor
  · intro hc hcol
    have hlt : ¬ (db.counter + 1 < 2) := by omega
    simp [create_event, storeEvent, hlt, hcol]
  · intro hc hcol
    have hlt : ¬ (db.counter + 1 < 2) := by omega
    simp [create_event_retry, storeEvent, hlt, hcol]

/-- C2 witness: on the store with counter 5 and durable log `[6]`, the public
call defers to the retry variant on the healed store, and the retry variant
itself fails fatally with the "unable to recover" error. -/
theorem create_event_collision_retries_once_witness :
    (create_event dbBehind 1 "channel.message" (Content.text "x") 7 none =
      create_event_retry { dbBehind with counter := getHighestId dbBehind.events + 1 }
        1 "channel.message" (Content.text "x") 7 none)
    ∧ (create_event_retry dbBehind 1 "channel.message" (Content.text "x") 7 none).2 =
        Except.error "unable to recover in store_event" :=
  ⟨(create_event_collision_retries_once dbBehind 1 "channel.message" (Content.text "x")
      7 none).1 (by decide) rfl,
   (create_event_collision_retries_once dbBehind 1 "channel.message" (Content.text "x")
      7 none).2 (by decide) rfl⟩

/-- C10. A first-attempt success of `create_event` stores the supplied
`replaces` reference (first conjunct), while a call whose first durable
insert collides stores its event through the single self-heal retry with
`replaces` equal to null, because the retried call does not forward the
`replaces` argument (second conjunct). -/
theorem create_event_retry_drops_replaces (db : DB) (ch : Nat) (t : String)
    (ct : Content) (sd : Nat) (rep : Option Nat) :
    (containsId db.events (db.counter + 1) = false →
      ∃ e, (create_event db ch t ct sd rep).2 = Except.ok e ∧ e.replaces_id = rep)
    ∧ (1 ≤ db.counter → containsId db.events (db.counter + 1) = true →
      ∃ e, (create_event db ch t ct sd rep).2 = Except.ok e ∧ e.replaces_id = none) := by
  constructor
  · intro hfree
    refine ⟨{ id := db.counter + 1, channel_id := ch, event_type := t, content := ct,
              sender_id := sd, replaces_id := rep, edited := none }, ?_, rfl⟩
    by_cases h2 : db.counter + 1 < 2 <;>
      simp [create_event, storeEvent, h2, hfree]
  · intro hc hcol
    have hlt : ¬ (db.counter + 1 < 2) := by omega
    have hfree : containsId db.events (getHighestId db.events + 1 + 1) = false :=
      containsId_eq_false _ _ (by omega)
    have hlt2 : ¬ (getHighestId db.events + 1 + 1 < 2) := by omega
    refine ⟨{ id := getHighestId db.events + 1 + 1, channel_id := ch, event_type := t,
              content := ct, sender_id := sd, replaces_id := none, edited := none }, ?_, rfl⟩
    simp [create_event, create_event_retry, storeEvent, hlt, hcol, hfree, hlt2]

/-- C10 witness: with a free candidate the stored event keeps
`replaces = some 42`; after a first-insert collision the stored event has
`replaces = none` although `some 42` was supplied. -/
theorem create_event_retry_drops_replaces_witness :
    (∃ e, (create_event dbAhead 1 "channel.message" (Content.text "x") 7 (some 42)).2
        = Except.ok e ∧ e.replaces_id = some 42)
    ∧ ∃ e, (create_event dbBehind 1 "channel.message" (Content.text "x") 7 (some 42)).2
        = Except.ok e ∧ e.replaces_id = none :=
  ⟨(create_event_retry_drops_replaces dbAhead 1 "channel.message" (Content.text "x")
      7 (some 42)).1 rfl,
   (create_event_retry_drops_replaces dbBehind 1 "channel.message" (Content.text "x")
      7 (some 42)).2 (by decide) rfl⟩

/-- A map that does not change the truth of the filter predicate preserves the
number of selected rows. -/
theorem length_filter_map_eq {α : Type} (f : α → α) (p : α → Bool)
    (h : ∀ x, p (f x) = p x) (l : List α) :
    ((l.map f).filter p).length = (l.filter p).length := by
  induction l with
  | nil => rfl
  | cons a l ih =>
    simp only [List.map_cons, List.filter_cons, h a]
    cases p a <;> simp [ih]

/-- C5. `add_channel_user` is idempotent and preserves (channel, user)
uniqueness: with no existing row, a non-volatile join reports created and an
immediate second identical join reports not-created and leaves the table
unchanged (first conjunct); on an existing volatile row a non-volatile join
reports not-created, clears the volatile flag of the (channel, user) rows and
does not change their number (second conjunct); once every row of the key is
non-volatile, a later volatile join changes nothing, so the flag is never set
back (third conjunct); and a table with at most one row per key keeps at most
one row per key (fourth conjunct). -/
theorem add_channel_user_props (ms : List Membership) (c u : Nat) :
    (ms.find? (fun m => m.channel_id == c && m.user_id == u) = none →
      (add_channel_user ms c u false).2 = true ∧
      (add_channel_user (add_channel_user ms c u false).1 c u false).2 = false ∧
      (add_channel_user (add_channel_user ms c u false).1 c u false).1 =
        (add_channel_user ms c u false).1)
    ∧ (∀ m, ms.find? (fun m => m.channel_id == c && m.user_id == u) = some m →
        m.volatile = true →
        (add_channel_user ms c u false).2 = false ∧
        countMembership (add_channel_user ms c u false).1 c u = countMembership ms c u ∧
        ∀ x ∈ (add_channel_user ms c u false).1,
          x.channel_id = c → x.user_id = u → x.volatile = false)
    ∧ ((∀ x ∈ ms, x.channel_id = c → x.user_id = u → x.volatile = false) →
        ∀ m, ms.find? (fun m => m.channel_id == c && m.user_id == u) = some m →
          add_channel_user ms c u true = (ms, false))
    ∧ (∀ v : Bool, countMembership ms c u ≤ 1 →
        countMembership (add_channel_user ms c u v).1 c u ≤ 1) := by
  have hpres : ∀ x : Membership,
      ((if x.channel_id == c && x.user_id == u then
          { x with volatile := false } else x).channel_id == c &&
        (if x.channel_id == c && x.user_id == u then
          { x with volatile := false } else x).user_id == u) =
        (x.channel_id == c && x.user_id == u) := by
    intro x
    by_cases hx : (x.channel_id == c && x.user_id == u) = true <;> simp [hx]
  refine ⟨?_, ?_, ?_, ?_⟩
  · intro hnone
    have hfind2 :
        ((ms ++ [mkMembership c u false false]).find?
            (fun m => m.channel_id == c && m.user_id == u)) =
          some (mkMembership c u false false) := by
      rw [List.find?_append, hnone]
      simp [mkMembership]
    refine ⟨by simp [add_channel_user, hnone], ?_, ?_⟩
    · simp [add_channel_user, hnone, hfind2, mkMembership]
    · simp [add_channel_user, hnone, hfind2, mkMembership]
  · intro m hfind hv
    refine ⟨by simp [add_channel_user, hfind, hv], ?_, ?_⟩
    · have hlen := length_filter_map_eq
        (fun x : Membership => if x.channel_id == c && x.user_id == u then
          { x with volatile := false } else x)
        (fun m => m.channel_id == c && m.user_id == u) hpres ms
      simp only [add_channel_user, hfind, hv]
      simpa [countMembership] using hlen
    · intro x hx hxc hxu
      simp only [add_channel_user, hfind, hv] at hx
      simp only [Bool.not_false, Bool.and_true, if_pos] at hx
      obtain ⟨y, hy, rfl⟩ := List.mem_map.mp hx
      by_cases hk : (y.channel_id == c && y.user_id == u) = true
      · simp [hk]
      · rw [if_neg (by simp [hk])] at hxc hxu ⊢
        exfalso
        apply hk
        simp [hxc, hxu]
  · intro hall m hfind
    have hm : m ∈ ms := List.mem_of_find?_eq_some hfind
    have hp := List.find?_some hfind
    have hvol : m.volatile = false := by
      apply hall m hm
      · have := (Bool.and_eq_true _ _).mp hp
        exact eq_of_beq this.1
      · have := (Bool.and_eq_true _ _).mp hp
        exact eq_of_beq this.2
    simp [add_channel_user, hfind, hvol]
  · intro v hcnt
    cases hf : ms.find? (fun m => m.channel_id == c && m.user_id == u) with
    | none =>
      have hzero : countMembership ms c u = 0 := by
        have hall := List.find?_eq_none.mp hf
        simp only [countMembership, List.length_eq_zero]
        rw [List.filter_eq_nil_iff]
        intro a ha
        exact hall a ha
      simp only [add_channel_user, hf, countMembership, List.filter_append]
      simp only [countMembership] at hzero
      rw [List.length_append, hzero]
      simp
    | some m =>
      by_cases hb : (m.volatile && !v) = true
      · have hlen := length_filter_map_eq
          (fun x : Membership => if x.channel_id == c && x.user_id == u then
            { x with volatile := false } else x)
          (fun m => m.channel_id == c && m.user_id == u) hpres ms
        simp only [add_channel_user, hf, hb, if_pos]
        simp only [countMembership] at hcnt ⊢
        omega
      · simpa [add_channel_user, hf, hb] using hcnt

/-- C5 witness: on the empty table a non-volatile join for (1, 2) reports
created exactly once; on a table with one volatile row the non-volatile join
clears the flag without duplicating; a later volatile join on the cleared
table is a no-op; one row per key remains one row. -/
theorem add_channel_user_props_witness :
    ((add_channel_user [] 1 2 false).2 = true ∧
      (add_channel_user (add_channel_user [] 1 2 false).1 1 2 false).2 = false ∧
      (add_channel_user (add_channel_user [] 1 2 false).1 1 2 false).1 =
        (add_channel_user [] 1 2 false).1)
    ∧ ((add_channel_user msVolatile 1 2 false).2 = false ∧
        countMembership (add_channel_user msVolatile 1 2 false).1 1 2 =
          countMembership msVolatile 1 2 ∧
        ∀ x ∈ (add_channel_user msVolatile 1 2 false).1,
          x.channel_id = 1 → x.user_id = 2 → x.volatile = false)
    ∧ add_channel_user (add_channel_user msVolatile 1 2 false).1 1 2 true =
        ((add_channel_user msVolatile 1 2 false).1, false)
    ∧ countMembership (add_channel_user msVolatile 1 2 false).1 1 2 ≤ 1 :=
  ⟨(add_channel_user_props [] 1 2).1 rfl,
   (add_channel_user_props msVolatile 1 2).2.1 (mkMembership 1 2 true false) rfl rfl,
   (add_channel_user_props (add_channel_user msVolatile 1 2 false).1 1 2).2.2.1
     (by decide) (mkMembership 1 2 false false) (by decide),
   (add_channel_user_props msVolatile 1 2).2.2.2 false (by decide)⟩

/-- C7. Reaction operations are idempotent: adding the same reaction twice
from the same sender to the same event equals adding it once (first
conjunct); a table with at most one row for the triple holds exactly one row
after an add (second conjunct); removing an absent reaction leaves the table
unchanged and is not an error (third conjunct); and both operations return
the event re-serialized with its current reaction set (fourth conjunct). -/
theorem reaction_ops_idempotent (events : List ChatEvent) (rs : List ChatEventReaction)
    (eid : Nat) (r : String) (uid : Nat) :
    (add_reaction events (add_reaction events rs eid r uid).1 eid r uid =
        add_reaction events rs eid r uid)
    ∧ (countReaction rs eid r uid ≤ 1 →
        countReaction (add_reaction events rs eid r uid).1 eid r uid = 1)
    ∧ (countReaction rs eid r uid = 0 → (remove_reaction events rs eid r uid).1 = rs)
    ∧ ((add_reaction events rs eid r uid).2 =
        serializeWithReactions events (add_reaction events rs eid r uid).1 eid ∧
      (remove_reaction events rs eid r uid).2 =
        serializeWithReactions events (remove_reaction events rs eid r uid).1 eid) := by
  refine ⟨?_, ?_, ?_, rfl, rfl⟩
  · by_cases h : (rs.any (fun x =>
        x.chat_event_id == eid && x.reaction == r && x.sender_id == uid)) = true
    · simp [add_reaction, h]
    · have hfalse : (rs.any (fun x =>
          x.chat_event_id == eid && x.reaction == r && x.sender_id == uid)) = false := by
        cases hb : rs.any (fun x =>
            x.chat_event_id == eid && x.reaction == r && x.sender_id == uid)
        · rfl
        · exact absurd hb h
      have h2 : ((rs ++ [mkReaction eid r uid]).any (fun x =>
            x.chat_event_id == eid && x.reaction == r && x.sender_id == uid)) = true := by
        rw [List.any_append]
        simp [mkReaction]
      simp [add_reaction, hfalse, h2, mkReaction]
  · intro hcnt
    by_cases h : (rs.any (fun x =>
        x.chat_event_id == eid && x.reaction == r && x.sender_id == uid)) = true
    · have hpos : 0 < countReaction rs eid r uid := by
        obtain ⟨x, hx, hpx⟩ := List.any_eq_true.mp h
        simp only [countReaction, List.length_pos]
        intro hnil
        have hxm : x ∈ rs.filter (fun x =>
            x.chat_event_id == eid && x.reaction == r && x.sender_id == uid) :=
          List.mem_filter.mpr ⟨hx, hpx⟩
        rw [hnil] at hxm
        cases hxm
      have heq : countReaction (add_reaction events rs eid r uid).1 eid r uid =
          countReaction rs eid r uid := by
        simp [add_reaction, h]
      omega
    · have hfalse : (rs.any (fun x =>
          x.chat_event_id == eid && x.reaction == r && x.sender_id == uid)) = false := by
        cases hb : rs.any (fun x =>
            x.chat_event_id == eid && x.reaction == r && x.sender_id == uid)
        · rfl
        · exact absurd hb h
      have hzero : countReaction rs eid r uid = 0 := by
        simp only [countReaction, List.length_eq_zero]
        rw [List.filter_eq_nil_iff]
        intro a ha hpa
        exact h (List.any_eq_true.mpr ⟨a, ha, hpa⟩)
      simp only [add_reaction, hfalse, Bool.false_eq_true, if_neg, not_false_iff]
      simp only [countReaction, List.filter_append]
      simp only [countReaction] at hzero
      rw [List.length_append, hzero]
      simp [mkReaction]
  · intro hzero
    have hall : ∀ a ∈ rs, ¬ (a.chat_event_id == eid && a.reaction == r
        && a.sender_id == uid) = true := by
      intro a ha hpa
      have hm : a ∈ rs.filter (fun x =>
          x.chat_event_id == eid && x.reaction == r && x.sender_id == uid) :=
        List.mem_filter.mpr ⟨ha, hpa⟩
      simp only [countReaction, List.length_eq_zero] at hzero
      rw [hzero] at hm
      cases hm
    simp only [remove_reaction]
    rw [List.filter_eq_self]
    intro a ha
    cases hpa : (a.chat_event_id == eid && a.reaction == r && a.sender_id == uid)
    · rfl
    · exact absurd hpa (hall a ha)

/-- C7 witness: adding the reaction (5, "+1", 7) twice on the empty table
equals adding it once and leaves exactly one row; removing it from the empty
table is a no-op. -/
theorem reaction_ops_idempotent_witness :
    (add_reaction [mkEv 5 2] (add_reaction [mkEv 5 2] [] 5 "+1" 7).1 5 "+1" 7 =
        add_reaction [mkEv 5 2] [] 5 "+1" 7)
    ∧ countReaction (add_reaction [mkEv 5 2] [] 5 "+1" 7).1 5 "+1" 7 = 1
    ∧ (remove_reaction [mkEv 5 2] [] 5 "+1" 7).1 = [] :=
  ⟨(reaction_ops_idempotent [mkEv 5 2] [] 5 "+1" 7).1,
   (reaction_ops_idempotent [mkEv 5 2] [] 5 "+1" 7).2.1 (by decide),
   (reaction_ops_idempotent [mkEv 5 2] [] 5 "+1" 7).2.2.1 (by decide)⟩

/-- C9. `update_event` changes only the content and edited fields of the
event — id, channel, event type, sender and the replaces reference are
unchanged (first conjunct) — and creates the audit entry recording the old
and new serialized forms (second conjunct); the only other writer of the
event log, `storeEvent`, is append-only: every previously stored event is
still in the log after an insert (third conjunct). -/
theorem update_event_frame (w : Nat) (e : ChatEvent) (nc : Content) (u : Nat) (t : Nat) :
    ((update_event w e nc u t).1.id = e.id ∧
      (update_event w e nc u t).1.channel_id = e.channel_id ∧
      (update_event w e nc u t).1.event_type = e.event_type ∧
      (update_event w e nc u t).1.sender_id = e.sender_id ∧
      (update_event w e nc u t).1.replaces_id = e.replaces_id ∧
      (update_event w e nc u t).1.content = nc ∧
      (update_event w e nc u t).1.edited = some t)
    ∧ (update_event w e nc u t).2 =
        { world_id := w, user_id := u, type := "chat.event.updated", object := e.id,
          by_same_user := u == e.sender_id, old := e, new := (update_event w e nc u t).1 }
    ∧ (∀ db i ch ty ct sd rep ce db2,
        storeEvent db i ch ty ct sd rep = some (ce, db2) →
        ∀ ev ∈ db.events, ev ∈ db2.events) := by
  refine ⟨⟨rfl, rfl, rfl, rfl, rfl, rfl, rfl⟩, rfl, ?_⟩
  intro db i ch ty ct sd rep ce db2 h ev hev
  rw [storeEvent] at h
  by_cases hc : containsId db.events i = true
  · rw [if_pos hc] at h
    cases h
  · rw [if_neg hc] at h
    simp only [Option.some.injEq, Prod.mk.injEq] at h
    obtain ⟨hce, hdb2⟩ := h
    subst hdb2
    simp only [List.mem_append]
    exact Or.inl hev

/-- C9 witness: the append-only conjunct applied to the insert of `ce9` into
`dbAhead` shows the previously stored event is still in the log. -/
theorem update_event_frame_witness : mkEv 3 1 ∈ dbAheadG.events :=
  (update_event_frame 0 (mkEv 3 1) (Content.text "n") 7 99).2.2
    dbAhead 9 1 "channel.message" (Content.text "x") 7 none ce9 dbAheadG
    (by decide) (mkEv 3 1) (by decide)

/-- C6. `remove_notifications` deletes exactly the notifications of the user
in the channel with event id at most `max_id`, and reports true exactly when
at least one row was selected for deletion (first conjunct); and the concrete
lifecycle: after `store_notification` of event 5 (in channel 2) for user 7,
the notification counts map channel 2 to the positive count 1; removing up to
id 5 reports that something was deleted; afterwards channel 2 is absent from
the counts, and a second identical removal reports that nothing was deleted
(remaining conjuncts). -/
theorem notification_lifecycle :
    (∀ (db : DB) (u c m : Nat),
      (remove_notifications db u c m).1.notifications =
        db.notifications.filter (fun n => !(notificationSelected db.events u c m n)) ∧
      ((remove_notifications db u c m).2 = true ↔
        ∃ n ∈ db.notifications, notificationSelected db.events u c m n = true))
    ∧ lookupCount (get_notification_counts dbN1 7) 2 = some 1
    ∧ (remove_notifications dbN1 7 2 5).2 = true
    ∧ lookupCount (get_notification_counts dbN2 7) 2 = none
    ∧ (remove_notifications dbN2 7 2 5).2 = false := by
  refine ⟨?_, by decide, by decide, by decide, by decide⟩
  intro db u c m
  refine ⟨rfl, ?_⟩
  simp only [remove_notifications, decide_eq_true_eq]
  constructor
  · intro hpos
    obtain ⟨n, hn⟩ := List.length_pos_iff_exists_mem.mp hpos
    have := List.mem_filter.mp hn
    exact ⟨n, this.1, this.2⟩
  · intro h
    obtain ⟨n, hn, hsel⟩ := h
    exact List.length_pos_iff_exists_mem.mpr
      ⟨n, List.mem_filter.mpr ⟨hn, hsel⟩⟩

/-- C4. `get_or_create_direct_channel` returns the null result
`(none, false, [])` — an ordinary value, not an exception — whenever a
requested user id is missing from the tenant (first conjunct), fewer than two
valid users remain (second conjunct), one found participant has blocked
another (third conjunct, symmetric in the participants and independent of
the order of the requested ids), or a found participant is deleted or of
kiosk or anonymous type (fourth conjunct). -/
theorem direct_channel_rejections (db : DB) (w : Nat) (ids : List Nat)
    (hide : Bool) (he : Option Nat) :
    (ids.Nodup → (db.users.map User.id).Nodup →
      (∃ i ∈ ids, ∀ u ∈ db.users, u.world_id = w → u.id ≠ i) →
      get_or_create_direct_channel db w ids hide he = (db, Except.ok (none, false, [])))
    ∧ ((usersFound db.users w ids).length < 2 →
      get_or_create_direct_channel db w ids hide he = (db, Except.ok (none, false, [])))
    ∧ (∀ a b : User, a ∈ usersFound db.users w ids → b ∈ usersFound db.users w ids →
      b.id ≠ a.id → b.id ∈ a.blocked_users →
      get_or_create_direct_channel db w ids hide he = (db, Except.ok (none, false, [])))
    ∧ (∀ v : User, v ∈ usersFound db.users w ids →
      (v.deleted = true ∨ v.type = UserType.kiosk ∨ v.type = UserType.anonymous) →
      get_or_create_direct_channel db w ids hide he = (db, Except.ok (none, false, []))) := by
  have hreject : ((usersFound db.users w ids).length ≠ ids.length ∨
      (usersFound db.users w ids).length < 2 ∨ ineligible (usersFound db.users w ids)) →
      get_or_create_direct_channel db w ids hide he = (db, Except.ok (none, false, [])) := by
    intro hcond
    simp only [get_or_create_direct_channel]
    rw [if_pos hcond]
  refine ⟨?_, ?_, ?_, ?_⟩
  · intro hids hdbids hmiss
    obtain ⟨i, hi, hnone⟩ := hmiss
    have hsub : ∀ x ∈ usersFound db.users w ids, x.id ∈ ids ∧ x.id ≠ i := by
      intro x hx
      have hx2 := List.mem_filter.mp hx
      have hw : x.world_id = w := by
        have := (Bool.and_eq_true _ _).mp hx2.2
        exact eq_of_beq this.1
      have hmem : x.id ∈ ids := by
        have := (Bool.and_eq_true _ _).mp hx2.2
        simpa using this.2
      exact ⟨hmem, hnone x hx2.1 hw⟩
    have hnodupS : ((usersFound db.users w ids).map User.id).Nodup :=
      List.Nodup.sublist (List.Sublist.map _ (List.filter_sublist _)) hdbids
    have hsubF : ((usersFound db.users w ids).map User.id).toFinset ⊆
        ids.toFinset.erase i := by
      intro x hx
      obtain ⟨y, hy, rfl⟩ := List.mem_map.mp (List.mem_toFinset.mp hx)
      have := hsub y hy
      exact Finset.mem_erase.mpr ⟨this.2, List.mem_toFinset.mpr this.1⟩
    have hlt : (usersFound db.users w ids).length < ids.length := by
      have h1 : ((usersFound db.users w ids).map User.id).toFinset.card =
          (usersFound db.users w ids).length := by
        rw [List.toFinset_card_of_nodup hnodupS, List.length_map]
      have h2 : (ids.toFinset.erase i).card = ids.length - 1 := by
        rw [Finset.card_erase_of_mem (List.mem_toFinset.mpr hi),
          List.toFinset_card_of_nodup hids]
      have h3 := Finset.card_le_card hsubF
      have h4 : 0 < ids.length := List.length_pos_iff_exists_mem.mpr ⟨i, hi⟩
      omega
    exact hreject (Or.inl (by omega))
  · intro hfew
    exact hreject (Or.inr (Or.inl hfew))
  · intro a b ha hb hne hblk
    exact hreject (Or.inr (Or.inr ⟨a, ha, Or.inl ⟨b, hb, hne, hblk⟩⟩))
  · intro v hv hbad
    exact hreject (Or.inr (Or.inr ⟨v, hv, Or.inr hbad⟩))

/-- C4 witness: on the populated store, requesting the absent id 9, a single
id, the pair (2, 4) where user 4 has blocked user 2, and the pair (1, 5)
with the deleted user 5, each returns the null triple. -/
theorem direct_channel_rejections_witness :
    get_or_create_direct_channel dbDirect 0 [1, 9] true none =
        (dbDirect, Except.ok (none, false, []))
    ∧ get_or_create_direct_channel dbDirect 0 [1] true none =
        (dbDirect, Except.ok (none, false, []))
    ∧ get_or_create_direct_channel dbDirect 0 [2, 4] true none =
        (dbDirect, Except.ok (none, false, []))
    ∧ get_or_create_direct_channel dbDirect 0 [1, 5] true none =
        (dbDirect, Except.ok (none, false, [])) :=
  ⟨(direct_channel_rejections dbDirect 0 [1, 9] true none).1 (by decide) (by decide)
      ⟨9, by decide, by decide⟩,
   (direct_channel_rejections dbDirect 0 [1] true none).2.1 (by decide),
   (direct_channel_rejections dbDirect 0 [2, 4] true none).2.2.1 dan bob
      (by decide) (by decide) (by decide) (by decide),
   (direct_channel_rejections dbDirect 0 [1, 5] true none).2.2.2 delUser
      (by decide) (Or.inl (by decide))⟩

/-- C3. The search of `get_or_create_direct_channel` matches only a room-less
channel whose membership set is exactly the requested user set: under the
(channel, user) uniqueness invariant and distinct requested ids, a channel
accepted by the two-sided count comparison has `room = null` and its members
are precisely the requested ids (first conjunct).  Concretely, calling the
operation twice with the same user set returns the same channel, reports
created only the first time and leaves the store unchanged on the second
call, while calling it with a strict superset of an existing channel's member
set creates a distinct new channel (remaining conjuncts). -/
theorem direct_channel_exact_match :
    (∀ (ms : List Membership) (w : Nat) (ids : List Nat) (c : Channel),
      memsUnique ms → ids.Nodup → directMatch ms w ids c = true →
      c.room_id = none ∧
        ∀ i : Nat, i ∈ ids ↔ ∃ m ∈ ms, m.channel_id = c.id ∧ m.user_id = i)
    ∧ (get_or_create_direct_channel dbDirect 0 [1, 2] true none).2 =
        Except.ok (some chD, true, [ann, bob])
    ∧ (get_or_create_direct_channel dbD1 0 [1, 2] true none).2 =
        Except.ok (some chD, false, [ann, bob])
    ∧ (get_or_create_direct_channel dbD1 0 [1, 2] true none).1 = dbD1
    ∧ (get_or_create_direct_channel dbD1 0 [1, 2, 3] true none).2 =
        Except.ok (some chD3, true, [ann, bob, cec])
    ∧ chD3.id ≠ chD.id := by
  refine ⟨?_, rfl, rfl, by decide, rfl, by decide⟩
  intro ms w ids c hms hids hdm
  simp only [directMatch, Bool.and_eq_true, beq_iff_eq,
    Option.isNone_iff_eq_none] at hdm
  obtain ⟨⟨⟨hmis, hmat⟩, hroom⟩, hworld⟩ := hdm
  have hFsub : ∀ m ∈ ms.filter (fun m => m.channel_id == c.id && ids.contains m.user_id),
      m ∈ ms ∧ m.channel_id = c.id ∧ m.user_id ∈ ids := by
    intro m hm
    have h := List.mem_filter.mp hm
    have hb := (Bool.and_eq_true _ _).mp h.2
    exact ⟨h.1, eq_of_beq hb.1, by simpa using hb.2⟩
  have hmsnodup : ms.Nodup := List.Nodup.of_map _ hms
  have hFnodup : (ms.filter (fun m => m.channel_id == c.id && ids.contains m.user_id)).Nodup :=
    List.Nodup.filter _ hmsnodup
  have hinj := List.inj_on_of_nodup_map hms
  have hLnodup : ((ms.filter (fun m => m.channel_id == c.id && ids.contains m.user_id)).map
      Membership.user_id).Nodup := by
    apply List.Nodup.map_on ?_ hFnodup
    intro x hx y hy hxy
    have hxF := hFsub x hx
    have hyF := hFsub y hy
    apply hinj hxF.1 hyF.1
    simp [hxF.2.1, hyF.2.1, hxy]
  have hLsub : (((ms.filter (fun m => m.channel_id == c.id && ids.contains m.user_id)).map
      Membership.user_id).toFinset : Finset Nat) ⊆ ids.toFinset := by
    intro x hx
    obtain ⟨m, hm, rfl⟩ := List.mem_map.mp (List.mem_toFinset.mp hx)
    exact List.mem_toFinset.mpr (hFsub m hm).2.2
  have hcard : ids.toFinset.card ≤
      ((ms.filter (fun m => m.channel_id == c.id && ids.contains m.user_id)).map
        Membership.user_id).toFinset.card := by
    rw [List.toFinset_card_of_nodup hids, List.toFinset_card_of_nodup hLnodup,
      List.length_map]
    omega
  have hFeq := Finset.eq_of_subset_of_card_le hLsub hcard
  refine ⟨hroom, ?_⟩
  intro i
  constructor
  · intro hi
    have hiF : i ∈ ((ms.filter (fun m => m.channel_id == c.id && ids.contains m.user_id)).map
        Membership.user_id).toFinset := by
      rw [hFeq]
      exact List.mem_toFinset.mpr hi
    obtain ⟨m, hm, rfl⟩ := List.mem_map.mp (List.mem_toFinset.mp hiF)
    exact ⟨m, (hFsub m hm).1, (hFsub m hm).2.1, rfl⟩
  · intro h
    obtain ⟨m, hm, hch, hui⟩ := h
    by_contra hni
    have hpred : (m.channel_id == c.id && !(ids.contains m.user_id)) = true := by
      have hnc : ids.contains m.user_id = false := by
        cases hcc : ids.contains m.user_id
        · rfl
        · exfalso
          apply hni
          rw [← hui]
          simpa using hcc
      rw [hnc]
      simp [hch]
    have hmF : m ∈ ms.filter (fun m => m.channel_id == c.id && !(ids.contains m.user_id)) :=
      List.mem_filter.mpr ⟨hm, hpred⟩
    rw [List.length_eq_zero] at hmis
    rw [hmis] at hmF
    cases hmF

/-- C3 witness: the exact-match conjunct applied to the membership table of
`dbD1` shows the created channel `chD` carries exactly the members 1 and 2. -/
theorem direct_channel_exact_match_witness :
    chD.room_id = none ∧
      ∀ i : Nat, i ∈ [1, 2] ↔ ∃ m ∈ dbD1.memberships, m.channel_id = chD.id ∧ m.user_id = i :=
  direct_channel_exact_match.1 dbD1.memberships 0 [1, 2] chD
    (by decide) (by decide) (by decide)

/-- When the (channel, user) row already exists, `add_channel_user` does not
change the number of rows of that key. -/
theorem countMembership_add_not_created (ms : List Membership) (c u : Nat)
    (m : Membership)
    (hf : ms.find? (fun m => m.channel_id == c && m.user_id == u) = some m)
    (v : Bool) :
    countMembership (add_channel_user ms c u v).1 c u = countMembership ms c u := by
  have hpres : ∀ x : Membership,
      ((if x.channel_id == c && x.user_id == u then
          { x with volatile := false } else x).channel_id == c &&
        (if x.channel_id == c && x.user_id == u then
          { x with volatile := false } else x).user_id == u) =
        (x.channel_id == c && x.user_id == u) := by
    intro x
    by_cases hx : (x.channel_id == c && x.user_id == u) = true <;> simp [hx]
  by_cases hb : (m.volatile && !v) = true
  · have hlen := length_filter_map_eq
      (fun x : Membership => if x.channel_id == c && x.user_id == u then
        { x with volatile := false } else x)
      (fun m => m.channel_id == c && m.user_id == u) hpres ms
    simp only [add_channel_user, hf, hb, if_pos]
    simpa [countMembership] using hlen
  · simp [add_channel_user, hf, hb]

/-- C8. `enforce_forced_joins` is idempotent per (user, channel) and
permission-gated: it does nothing for a user without a display name (first
conjunct); every candidate channel of `get_channels_to_join_forced` lies in
the world, has no non-volatile membership of the user, and is bound to a
`force_join` room (second conjunct); a channel whose room the permission
oracle denies is skipped silently, leaving the state untouched (third
conjunct); when a membership row for the (channel, user) key already exists,
the step synthesizes no join event — no fan-out, no event append, no
channel-list broadcast, no unread-notify mark — and creates no duplicate row
(fourth conjunct); with no candidate channels the enforcer is a no-op (fifth
conjunct); and concretely, re-running the enforcer after a successful run
that fanned out exactly one join event changes nothing (sixth conjunct). -/
theorem enforce_forced_joins_props :
    (∀ (perm : Nat → Bool) (w : Nat) (user : User) (st : EnforceState),
      user.display_name.getD "" = "" → enforce_forced_joins perm w user st = st)
    ∧ (∀ (db : DB) (w uid : Nat) (c : Channel), c ∈ get_channels_to_join_forced db w uid →
        (¬ ∃ m ∈ db.memberships, m.channel_id = c.id ∧ m.user_id = uid ∧ m.volatile = false)
        ∧ c.world_id = w
        ∧ ∃ r, c.room_id = some r ∧
            ∃ room ∈ db.rooms, room.id = r ∧ room.force_join = true)
    ∧ (∀ (perm : Nat → Bool) (user : User) (st : EnforceState) (c : Channel) (r : Nat),
        c.room_id = some r → perm r = false → enforce_step perm user st c = st)
    ∧ (∀ (perm : Nat → Bool) (user : User) (st : EnforceState) (c : Channel),
        (∃ m ∈ st.db.memberships, m.channel_id = c.id ∧ m.user_id = user.id) →
        (enforce_step perm user st c).sent = st.sent ∧
        (enforce_step perm user st c).db.events = st.db.events ∧
        (enforce_step perm user st c).broadcasts = st.broadcasts ∧
        (enforce_step perm user st c).notify_marks = st.notify_marks ∧
        countMembership (enforce_step perm user st c).db.memberships c.id user.id =
          countMembership st.db.memberships c.id user.id)
    ∧ (∀ (perm : Nat → Bool) (w : Nat) (user : User) (st : EnforceState),
        get_channels_to_join_forced st.db w user.id = [] →
        enforce_forced_joins perm w user st = st)
    ∧ (enforce_forced_joins (fun _ => true) 0 ann stForce1 = stForce1
        ∧ stForce1.sent.length = 1
        ∧ countMembership stForce1.db.memberships 20 1 = 1) := by
  refine ⟨?_, ?_, ?_, ?_, ?_, by decide⟩
  · intro perm w user st h
    rw [enforce_forced_joins, if_pos h]
  · intro db w uid c hc
    have h := List.mem_filter.mp hc
    have h2 := h.2
    rw [Bool.and_eq_true] at h2
    obtain ⟨h3, hmatch⟩ := h2
    rw [Bool.and_eq_true] at h3
    obtain ⟨hnotmem, hworld⟩ := h3
    refine ⟨?_, eq_of_beq hworld, ?_⟩
    · intro hex
      obtain ⟨m, hm, hch, hu, hv⟩ := hex
      rw [Bool.not_eq_true'] at hnotmem
      have hnone := List.any_eq_false.mp hnotmem m hm
      apply hnone
      simp [hch, hu, hv]
    · cases hr : c.room_id with
      | none =>
        rw [hr] at hmatch
        simp at hmatch
      | some r =>
        rw [hr] at hmatch
        have hm2 : Option.any (fun room => room.force_join)
            (List.find? (fun room => room.id == r) db.rooms) = true := hmatch
        cases hf : db.rooms.find? (fun room => room.id == r) with
        | none =>
          rw [hf] at hm2
          cases hm2
        | some room =>
          rw [hf] at hm2
          refine ⟨r, rfl, room, List.mem_of_find?_eq_some hf,
            ?_, by simpa using hm2⟩
          have hpr := List.find?_some hf
          simpa using hpr
  · intro perm user st c r hroom hperm
    by_cases herr : st.error.isSome = true <;>
      simp [enforce_step, herr, hroom, hperm]
  · intro perm user st c hex
    obtain ⟨m, hm, hch, hu⟩ := hex
    by_cases herr : st.error.isSome = true
    · simp [enforce_step, herr]
    · cases hroom : c.room_id with
      | none => simp [enforce_step, herr, hroom]
      | some r =>
        by_cases hperm : perm r = true
        · cases hf : st.db.memberships.find?
              (fun x => x.channel_id == c.id && x.user_id == user.id) with
          | none =>
            exfalso
            apply List.find?_eq_none.mp hf m hm
            simp [hch, hu]
          | some m2 =>
            have hj2 : (add_channel_user st.db.memberships c.id user.id false).2 = false := by
              cases hv : m2.volatile <;> simp [add_channel_user, hf, hv]
            have hstep : enforce_step perm user st c =
                { st with db := { st.db with memberships :=
                    (add_channel_user st.db.memberships c.id user.id false).1 } } := by
              simp [enforce_step, herr, hroom, hperm, hj2]
            rw [hstep]
            refine ⟨rfl, rfl, rfl, rfl, ?_⟩
            exact countMembership_add_not_created st.db.memberships c.id user.id m2 hf false
        · simp [enforce_step, herr, hroom, hperm]
  · intro perm w user st hempty
    rw [enforce_forced_joins]
    by_cases hd : user.display_name.getD "" = ""
    · rw [if_pos hd]
    · rw [if_neg hd, hempty]
      exact List.foldl_nil

/-- C8 witness: the guard conjuncts applied concretely — a user without a
display name is a no-op; the force-join channel 20 is a candidate with the
expected properties; a denying oracle leaves the state untouched; a step on
an already-present membership fans out nothing and keeps one row; after the
successful run the candidate list is empty and the enforcer is a no-op. -/
theorem enforce_forced_joins_props_witness :
    enforce_forced_joins (fun _ => true) 0 noNameUser stForce = stForce
    ∧ ((¬ ∃ m ∈ dbForce.memberships, m.channel_id = chanF.id ∧ m.user_id = 1 ∧
          m.volatile = false)
        ∧ chanF.world_id = 0
        ∧ ∃ r, chanF.room_id = some r ∧
            ∃ room ∈ dbForce.rooms, room.id = r ∧ room.force_join = true)
    ∧ enforce_step (fun _ => false) ann stForce chanF = stForce
    ∧ ((enforce_step (fun _ => true) ann stMember chanF).sent = stMember.sent ∧
        (enforce_step (fun _ => true) ann stMember chanF).db.events = stMember.db.events ∧
        (enforce_step (fun _ => true) ann stMember chanF).broadcasts = stMember.broadcasts ∧
        (enforce_step (fun _ => true) ann stMember chanF).notify_marks =
          stMember.notify_marks ∧
        countMembership (enforce_step (fun _ => true) ann stMember chanF).db.memberships
            chanF.id ann.id =
          countMembership stMember.db.memberships chanF.id ann.id)
    ∧ enforce_forced_joins (fun _ => true) 0 ann stForce1 = stForce1 :=
  ⟨enforce_forced_joins_props.1 (fun _ => true) 0 noNameUser stForce rfl,
   enforce_forced_joins_props.2.1 dbForce 0 1 chanF (by decide),
   enforce_forced_joins_props.2.2.1 (fun _ => false) ann stForce chanF 10 rfl rfl,
   enforce_forced_joins_props.2.2.2.1 (fun _ => true) ann stMember chanF (by decide),
   enforce_forced_joins_props.2.2.2.2.1 (fun _ => true) 0 ann stForce1 (by decide)⟩

end Chat
